import Mathlib

/-!
Verification development for the news-crawler script `src/news_crawler.py`
(repository daily-product-hub).

The script drives a chat model to extract a hot-news list from aggregated
homepage markdown and then a per-article summary.  This file shallowly embeds
the pure logic of the script: Python strings are `String`/`List Char`;
`json.loads` is modelled by an executable recursive-descent parser `loads`;
exceptions are modelled with `Option` (`none` = the operation raises);
network and model calls are parameters (`fetch`, `respond`) supplied by each
theorem.  Line numbers in doc comments refer to `src/news_crawler.py`.
-/

/-- The backtick character (used by the markdown fence of
`clean_json_string`); named to keep the character out of literals. -/
def backtick : Char := Char.ofNat 96

/-- Whitespace stripped by Python's `str.strip()` (restricted to the ASCII
whitespace characters; the inputs modelled here contain no other unicode
whitespace). -/
def isPyWs (c : Char) : Bool :=
  c == ' ' || c == '\t' || c == '\n' || c == '\r' || c == Char.ofNat 11 || c == Char.ofNat 12

/-- Python `str.strip()` on a character list: drop whitespace from both ends. -/
def pyStripL (cs : List Char) : List Char :=
  ((cs.dropWhile isPyWs).reverse.dropWhile isPyWs).reverse

/-- Python `str.strip()`. -/
def pyStrip (s : String) : String := String.mk (pyStripL s.toList)

/-- Python slicing `s[:n]` (by code points, as Python does). -/
def pyTake (n : Nat) (s : String) : String := String.mk (s.toList.take n)

/-- Whether `pat` is a prefix of `hay` (character lists). -/
def prefixMatch : List Char → List Char → Bool
  | _, [] => true
  | [], _ :: _ => false
  | a :: as, b :: bs => a == b && prefixMatch as bs

/-- Python's substring test `pat in hay` on character lists. -/
def containsL : List Char → List Char → Bool
  | [], pat => pat.isEmpty
  | a :: t, pat => prefixMatch (a :: t) pat || containsL t pat

/-- Python's substring test `pat in hay`. -/
def strContainsB (hay pat : String) : Bool := containsL hay.toList pat.toList

/-- Python's `s.startswith(pre)`. -/
def startsWithPy (s pre : String) : Bool := prefixMatch s.toList pre.toList

/-- Python's `s.endswith(suf)`. -/
def endsWithPy (s suf : String) : Bool := prefixMatch s.toList.reverse suf.toList.reverse

/-- JSON insignificant whitespace accepted by `json.loads`. -/
def isJsonWs (c : Char) : Bool := c == ' ' || c == '\t' || c == '\n' || c == '\r'

/-- Skip JSON whitespace. -/
def skipWs (cs : List Char) : List Char := cs.dropWhile isJsonWs

/-- JSON values, as produced by Python's `json.loads` (numbers restricted to
integers: no input in this development carries fractional or exponent
notation). -/
inductive Json where
  | null : Json
  | bool : Bool → Json
  | num : Int → Json
  | str : String → Json
  | arr : List Json → Json
  | obj : List (String × Json) → Json
deriving Repr, Inhabited

/-- Single-character JSON string escapes (`\uXXXX` escapes are not modelled;
no input in this development carries them). -/
def escChar : Char → Option Char
  | 'n' => some '\n'
  | 't' => some '\t'
  | 'r' => some '\r'
  | 'b' => some (Char.ofNat 8)
  | 'f' => some (Char.ofNat 12)
  | '/' => some '/'
  | '\\' => some '\\'
  | '"' => some '"'
  | _ => none

/-- Parse the body of a JSON string after the opening quote, returning the
decoded characters and the remaining input.  Raw control characters are
rejected, as by `json.loads` in strict mode. -/
def parseStrBody : List Char → Option (List Char × List Char)
  | [] => none
  | c :: rest =>
    if c == '"' then some ([], rest)
    else if c == '\\' then
      match rest with
      | [] => none
      | e :: rest2 =>
        match escChar e with
        | none => none
        | some d => (parseStrBody rest2).map (fun p => (d :: p.1, p.2))
    else if c.toNat < 32 then none
    else (parseStrBody rest).map (fun p => (c :: p.1, p.2))

/-- Decimal digit test. -/
def isDigitC (c : Char) : Bool := '0' ≤ c && c ≤ '9'

/-- Numeric value of a digit list. -/
def natFromDigits (ds : List Char) : Nat :=
  ds.foldl (fun acc c => acc * 10 + (c.toNat - 48)) 0

/-- Parse a JSON integer (fractions and exponents are rejected: they do not
occur in this development's inputs). -/
def parseNumber (cs : List Char) : Option (Json × List Char) :=
  let (neg, cs1) :=
    match cs with
    | c :: rest => if c == '-' then (true, rest) else (false, cs)
    | [] => (false, ([] : List Char))
  let ds := cs1.takeWhile isDigitC
  let rest := cs1.dropWhile isDigitC
  if ds.isEmpty then none
  else
    let n : Int := (natFromDigits ds : Nat)
    let v : Json := Json.num (if neg then -n else n)
    match rest with
    | c :: _ => if c == '.' || c == 'e' || c == 'E' then none else some (v, rest)
    | [] => some (v, [])

/-- Expect a literal character sequence, returning the rest. -/
def dropLit : List Char → List Char → Option (List Char)
  | cs, [] => some cs
  | c :: cs, l :: ls => if c == l then dropLit cs ls else none
  | [], _ :: _ => none

mutual

/-- Recursive-descent JSON value parser (fuel-indexed; `loads` supplies
fuel exceeding twice the input length, which the lemmas below show is
sufficient).  The input must start at a non-whitespace character. -/
def parseValue : Nat → List Char → Option (Json × List Char)
  | 0, _ => none
  | fuel + 1, cs =>
    match cs with
    | [] => none
    | c :: rest =>
      if c == '"' then
        (parseStrBody rest).map (fun p => (Json.str (String.mk p.1), p.2))
      else if c == '[' then
        match skipWs rest with
        | c2 :: rest2 =>
          if c2 == ']' then some (Json.arr [], rest2)
          else (parseArrItems fuel (c2 :: rest2)).map (fun p => (Json.arr p.1, p.2))
        | [] => none
      else if c == '{' then
        match skipWs rest with
        | c2 :: rest2 =>
          if c2 == '}' then some (Json.obj [], rest2)
          else (parseObjItems fuel (c2 :: rest2)).map (fun p => (Json.obj p.1, p.2))
        | [] => none
      else if c == 't' then
        (dropLit rest ['r', 'u', 'e']).map (fun r => (Json.bool true, r))
      else if c == 'f' then
        (dropLit rest ['a', 'l', 's', 'e']).map (fun r => (Json.bool false, r))
      else if c == 'n' then
        (dropLit rest ['u', 'l', 'l']).map (fun r => (Json.null, r))
      else parseNumber cs

/-- Parse the items of a non-empty JSON array up to and including the
closing bracket.  The input starts at the first value. -/
def parseArrItems : Nat → List Char → Option (List Json × List Char)
  | 0, _ => none
  | fuel + 1, cs =>
    match parseValue fuel cs with
    | none => none
    | some (v, rest) =>
      match skipWs rest with
      | c :: rest2 =>
        if c == ',' then
          (parseArrItems fuel (skipWs rest2)).map (fun p => (v :: p.1, p.2))
        else if c == ']' then some ([v], rest2)
        else none
      | [] => none

/-- Parse the members of a non-empty JSON object up to and including the
closing brace.  The input starts at the first key's opening quote. -/
def parseObjItems : Nat → List Char → Option (List (String × Json) × List Char)
  | 0, _ => none
  | fuel + 1, cs =>
    match cs with
    | [] => none
    | c :: rest =>
      if c == '"' then
        match parseStrBody rest with
        | none => none
        | some (key, rest1) =>
          match skipWs rest1 with
          | c2 :: rest2 =>
            if c2 == ':' then
              match parseValue fuel (skipWs rest2) with
              | none => none
              | some (v, rest3) =>
                match skipWs rest3 with
                | c3 :: rest4 =>
                  if c3 == ',' then
                    (parseObjItems fuel (skipWs rest4)).map
                      (fun p => ((String.mk key, v) :: p.1, p.2))
                  else if c3 == '}' then some ([(String.mk key, v)], rest4)
                  else none
                | [] => none
            else none
          | [] => none
      else none

end

/-- Models Python's `json.loads`: parse one JSON value and require only
whitespace to remain. -/
def loads (s : String) : Option Json :=
  let cs := skipWs s.toList
  match parseValue (2 * s.toList.length + 2) cs with
  | some (j, rest) => if (skipWs rest).isEmpty then some j else none
  | none => none

/-- Scan for the first occurrence of a markdown fence opener (three
backticks); on success return the text before it and the text after it. -/
def splitAtFence : List Char → Option (List Char × List Char)
  | [] => none
  | c :: rest =>
    if c = backtick then
      match rest with
      | c2 :: c3 :: rest2 =>
        if c2 = backtick ∧ c3 = backtick then some ([], rest2)
        else (splitAtFence rest).map (fun p => (c :: p.1, p.2))
      | _ => (splitAtFence rest).map (fun p => (c :: p.1, p.2))
    else (splitAtFence rest).map (fun p => (c :: p.1, p.2))

/-- Drop a case-insensitive literal "json" language tag directly after a
fence opener, as the regex group of `clean_json_string` does. -/
def dropJsonCI (cs : List Char) : List Char :=
  match cs with
  | a :: b :: c :: d :: rest =>
    if (a == 'j' || a == 'J') && (b == 's' || b == 'S') &&
       (c == 'o' || c == 'O') && (d == 'n' || d == 'N') then rest
    else cs
  | _ => cs

/-- Models `clean_json_string` (lines 98-104): strip the text, then replace it
with the stripped interior of the first complete fenced code block, if one
exists.  The regex match for the fence requires a closing delimiter; a lone
opener leaves the text unchanged.  (Texts whose first fence opener is
unclosed while a later complete fence exists are not modelled; no input in
this development has that shape.) -/
def clean_json_string (text : String) : String :=
  let t := pyStripL text.toList
  match splitAtFence t with
  | none => String.mk t
  | some (_, afterOpen) =>
    match splitAtFence (dropJsonCI afterOpen) with
    | none => String.mk t
    | some (inner, _) => String.mk (pyStripL inner)

/-- The single configured model identifier (line 12). -/
def AI_MODEL : String := "stepfun/step-3.5-flash:free"

/-- The configured source homepages (lines 15-18). -/
def SOURCES : List String := ["https://www.ithome.com", "https://www.mydrivers.com"]

/-- One chat turn, as passed to the completion endpoint. -/
structure Message where
  role : String
  content : String
deriving Repr

/-- A validated list entry as built on line 167: the title value is kept
verbatim (any JSON value), the url is a string after completion. -/
structure VItem where
  title : Json
  url : String
deriving Repr

/-- Python `dict.get key` on a parsed JSON object: the last binding wins,
as `json.loads` keeps the last duplicate key. -/
def jlookup (key : String) (kvs : List (String × Json)) : Option Json :=
  ((kvs.filter (fun p => p.1 == key)).getLast?).map (fun p => p.2)

/-- Models `urllib.parse.urljoin` restricted to the source's use (lines
163 and 165): the base is an absolute http(s) origin with empty path and
the url begins with a single "/", so joining concatenates them.
(Protocol-relative urls beginning with "//", which `urljoin` would resolve
by replacing the whole origin, are not modelled; no claim exercises them.) -/
def urljoin (base u : String) : String := base ++ u

/-- Python truthiness of a parsed JSON value (`if not u:`, `if details:`). -/
def pyTruthy : Json → Bool
  | Json.null => false
  | Json.bool b => b
  | Json.num n => n != 0
  | Json.str s => s ≠ ""
  | Json.arr xs => !xs.isEmpty
  | Json.obj kvs => !kvs.isEmpty

/-- Models one iteration of the validation loop (lines 154-167) on one parsed
element.  `none` models an exception escaping the loop (a non-dict element or
a truthy non-string url value: the attribute access raises, and the outer
handler at line 171 turns it into an empty result); `some none` models
`continue` (the element is dropped); `some (some v)` models appending `v`. -/
def processItem (all_markdown : String) (item : Json) : Option (Option VItem) :=
  match item with
  | Json.obj kvs =>
    let uj := (jlookup "url" kvs).getD (Json.str "")
    let tj := (jlookup "title" kvs).getD (Json.str "")
    match uj with
    | Json.str u =>
      if u = "" then some none
      else
        let u2 :=
          if startsWithPy u "/" then
            if strContainsB all_markdown "ithome" && !(strContainsB u "mydrivers") then
              urljoin "https://www.ithome.com" u
            else
              urljoin "https://www.mydrivers.com" u
          else u
        some (some ⟨tj, u2⟩)
    | j => if pyTruthy j then none else some none
  | _ => none

/-- The whole validation loop over the parsed array (lines 153-167),
propagating an exception from any element. -/
def processItems (all_markdown : String) : List Json → Option (List VItem)
  | [] => some []
  | item :: rest =>
    match processItem all_markdown item with
    | none => none
    | some none => processItems all_markdown rest
    | some (some v) => (processItems all_markdown rest).map (fun l => v :: l)

/-- Models lines 138-173 of `get_latest_hot_news`, given the completion
call's outcome (`none` models the call raising).  Parse the cleaned answer;
on a parse failure attempt the single bracket-append repair when the
stripped text opens an array without closing it; iterate the parsed array
through the validation loop; slice the first 8 entries (line 169).  Any
exception on the way yields the empty list via the handler at line 171. -/
def hotNewsFromAnswer (all_markdown : String) (answer : Option String) : List VItem :=
  match answer with
  | none => []
  | some content =>
    let cleaned := clean_json_string content
    let parsed :=
      match loads cleaned with
      | some d => some d
      | none =>
        if startsWithPy (pyStrip cleaned) "[" && !(endsWithPy (pyStrip cleaned) "]") then
          loads (cleaned ++ "]")
        else none
    match parsed with
    | some (Json.arr data) =>
      match processItems all_markdown data with
      | some valid => valid.take 8
      | none => []
    | _ => []

/-- The listing-phase prompt (lines 116-130), with the context truncated to
the first 20000 characters of the aggregated markdown (line 114). -/
def listPrompt (today context : String) : String :=
  "\n    今天是北京时间：" ++ today ++ "。\n    \n    请分析以下网页内容，严格筛选出【今天 (" ++
  today ++ ")】发布的、最热门的 5 条【硬件科技产品】新闻（手机、电脑、芯片、数码等）。\n    \n    如果不确定日期，请优先选择列表中最靠前的新闻。\n    \n    请严格返回 JSON 数组格式，不要包含任何 markdown 标记或额外文字：\n    [\n        \x7b\"title\": \"新闻标题\", \"url\": \"链接地址\"\x7d\n    ]\n    \n    内容来源：\n    " ++
  context ++ "\n    "

/-- The message list of the listing-phase completion request (line 135):
a single user turn carrying the whole prompt. -/
def listMessages (today all_markdown : String) : List Message :=
  [⟨"user", listPrompt today (pyTake 20000 all_markdown)⟩]

/-- Models `get_latest_hot_news` (lines 106-173): one completion request with
the single configured model id and the single-turn message list, then the
answer processing of `hotNewsFromAnswer`.  `respond` models the completion
endpoint: it receives the model id and the messages and returns the answer
text, or `none` when the request raises. -/
def get_latest_hot_news (today all_markdown : String)
    (respond : String → List Message → Option String) : List VItem :=
  hotNewsFromAnswer all_markdown (respond AI_MODEL (listMessages today all_markdown))

/-- The detail-phase prompt (lines 187-198), with the article markdown
truncated to its first 10000 characters (line 191). -/
def detailPrompt (md : String) : String :=
  "\n    请阅读这篇科技新闻，提取核心内容总结（300字以内）和第一张产品图片的链接。\n    \n    文章内容：\n    " ++
  pyTake 10000 md ++
  "\n    \n    请严格返回 JSON 格式：\n    \x7b\n        \"content\": \"这里是总结...\",\n        \"images\": [\"图片URL\"]\n    \x7d\n    "

/-- The message list of the detail-phase completion request (line 203). -/
def detailMessages (md : String) : List Message :=
  [⟨"user", detailPrompt md⟩]

/-- The placeholder detail returned when the detail request or its parsing
raises (line 209). -/
def placeholderDetail : Json :=
  Json.obj [("content", Json.str "内容提取失败"), ("images", Json.arr [])]

/-- Models `get_article_details` (lines 175-209), given the fetched article
markdown and the completion endpoint.  An empty fetch returns `none`
(line 184); a raising request or unparseable answer returns the placeholder
(line 209); otherwise the parsed answer is returned unvalidated. -/
def get_article_details (fetched : String)
    (respond : String → List Message → Option String) : Option Json :=
  if fetched = "" then none
  else
    match respond AI_MODEL (detailMessages fetched) with
    | none => some placeholderDetail
    | some c =>
      match loads (clean_json_string c) with
      | some j => some j
      | none => some placeholderDetail

/-- The record appended to `final_result` for one article (lines 246-250). -/
def resultRecord (title : Json) (kvs : List (String × Json)) : Json :=
  Json.obj [("资讯标题", title),
            ("内容", (jlookup "content" kvs).getD (Json.str "")),
            ("配图", (jlookup "images" kvs).getD (Json.arr []))]

/-- Models one iteration of the detail loop in `main` (lines 243-250) after
`get_article_details` returned.  `none` models an uncaught exception
(`details.get` on a truthy non-dict value raises `AttributeError`, and the
loop has no handler); `some none` models skipping the item (`if details:`
is false); `some (some r)` models appending `r`. -/
def detailStep (title : Json) (details? : Option Json) : Option (Option Json) :=
  match details? with
  | none => some none
  | some details =>
    if pyTruthy details then
      match details with
      | Json.obj kvs => some (some (resultRecord title kvs))
      | _ => none
    else some none

/-- The whole detail loop of `main` (lines 242-250). -/
def detailLoop (fetch : String → String)
    (respond : String → List Message → Option String) : List VItem → Option (List Json)
  | [] => some []
  | n :: rest =>
    match detailStep n.title (get_article_details (fetch n.url) respond) with
    | none => none
    | some none => detailLoop fetch respond rest
    | some (some r) => (detailLoop fetch respond rest).map (fun l => r :: l)

/-- The labelled concatenation of one source's homepage text (line 223). -/
def labelSource (site text : String) : String :=
  "\n=== 来源: " ++ site ++ " ===\n" ++ text ++ "\n"

/-- The aggregation loop of `main` (lines 218-224): sources whose fetched
text is longer than 500 characters are appended with their label. -/
def fullHome (fetch : String → String) : String :=
  SOURCES.foldl
    (fun acc site =>
      let t := fetch site
      if 500 < t.length then acc ++ labelSource site t else acc)
    ""

/-- The observable outcome of one run of `main`: whether the hot-news
completion endpoint was invoked, and the value written to the output file
(`none` when nothing was written). -/
structure MainTrace where
  modelInvoked : Bool
  saved : Option Json
deriving Repr

/-- Models `main` (lines 211-259).  `apiKey` is the `OPENROUTER_API_KEY`
value ("" when absent); `fetch` models `fetch_jina_content` ("" on failure);
`respond` models the completion endpoint for both phases.  The result is
`none` when an uncaught exception aborts the run, otherwise the run's
trace.  (`time.sleep`, logging and the file system are not modelled; the
written value is recorded in the trace.) -/
def mainRun (apiKey : String) (fetch : String → String) (today : String)
    (respond : String → List Message → Option String) : Option MainTrace :=
  if apiKey = "" then some ⟨false, none⟩
  else
    let full := fullHome fetch
    if full = "" then some ⟨false, some (Json.arr [])⟩
    else
      let news := get_latest_hot_news today full respond
      if news.isEmpty then some ⟨true, some (Json.arr [])⟩
      else
        match detailLoop fetch respond news with
        | none => none
        | some finalResult =>
          if finalResult.isEmpty then some ⟨true, some (Json.arr [])⟩
          else some ⟨true, some (Json.arr finalResult)⟩

/-- The source's context truncation (lines 114 and 191): `text[:chunkSize]`,
with `chunkSize = 20000` for the listing phase and `10000` for the detail
phase.  This is the script's only chunking of an input text: a single prefix
slice; the remainder is never sent. -/
def contextSlice (text : String) (chunkSize : Nat) : String := pyTake chunkSize text

/-- The sequence of segments the script derives from an input text: exactly
one, the truncated slice. -/
def codeChunks (text : String) (chunkSize : Nat) : List String := [contextSlice text chunkSize]

/-- Modelled from the spec: the chunk count `ceil(len(text)/chunkSize)` that
the specified TextChunker would produce (0 for empty text). -/
def specChunkCount (text : String) (chunkSize : Nat) : Nat :=
  (text.length + chunkSize - 1) / chunkSize

/-- Modelled from the spec: serialize one character of a JSON string,
escaping the quote and the backslash. -/
def escSeq (c : Char) : List Char :=
  if c == '"' || c == '\\' then ['\\', c] else [c]

/-- Modelled from the spec: serialize a JSON string body. -/
def escAll (l : List Char) : List Char := (l.map escSeq).flatten

/-- Modelled from the spec: serialize a JSON string with its quotes. -/
def strDumpL (s : String) : List Char := '"' :: (escAll s.data ++ ['"'])

/-- Modelled from the spec: the serialization of one news item
`\x7b"title": t, "url": u\x7d` (compact separators). -/
def itemDumpL (t u : String) : List Char :=
  '{' :: (strDumpL "title" ++ ':' :: (strDumpL t ++ ',' :: (strDumpL "url" ++ ':' :: (strDumpL u ++ ['}']))))

/-- The parsed form of one serialized news item. -/
def itemJson (t u : String) : Json :=
  Json.obj [("title", Json.str t), ("url", Json.str u)]

/-- Modelled from the spec: comma-separated serialization of a news list's
items. -/
def newsItemsDumpL : List (String × String) → List Char
  | [] => []
  | [p] => itemDumpL p.1 p.2
  | p :: rest => itemDumpL p.1 p.2 ++ ',' :: newsItemsDumpL rest

/-- Modelled from the spec: serialization of a whole news list (the
`extract_to_string` of the round-trip property). -/
def newsDumpL (v : List (String × String)) : List Char :=
  '[' :: (newsItemsDumpL v ++ [']'])

/-- String form of `newsDumpL`. -/
def newsDump (v : List (String × String)) : String := String.mk (newsDumpL v)

/-- The expected validated output for a serialized news list whose urls are
non-empty and not path-relative. -/
def expectedItems (v : List (String × String)) : List VItem :=
  v.map (fun p => ⟨Json.str p.1, p.2⟩)

/-- Well-formedness of a string appearing in a round-trip value: no control
characters (rejected by the parser outside escapes) and no backtick (so the
serialization cannot collide with a markdown fence). -/
def strOk (s : String) : Prop := ∀ c ∈ s.data, 32 ≤ c.toNat ∧ c ≠ backtick

/-- A markdown fence delimiter, three backticks. -/
def fenceMarker : List Char := [backtick, backtick, backtick]

/-- The lowercase "json" language tag. -/
def jsonTag : List Char := ['j', 's', 'o', 'n']

/-- A model answer with six valid items (C1). -/
def ansSix : String := "[\x7b\"title\":\"t1\",\"url\":\"u1\"\x7d,\x7b\"title\":\"t2\",\"url\":\"u2\"\x7d,\x7b\"title\":\"t3\",\"url\":\"u3\"\x7d,\x7b\"title\":\"t4\",\"url\":\"u4\"\x7d,\x7b\"title\":\"t5\",\"url\":\"u5\"\x7d,\x7b\"title\":\"t6\",\"url\":\"u6\"\x7d]"

/-- The truncated-array answer of the repair property (C5). -/
def rawTruncated : String := "[\x7b\"title\":\"a\",\"url\":\"http://x\"\x7d"

/-- The answer the second model id would return (C2). -/
def fallbackAnswer : String := "[\x7b\"title\":\"a\",\"url\":\"http://x\"\x7d]"

/-- A completion endpoint that fails on the configured model id and succeeds
on every other id (C2). -/
def twoModelRespond : String → List Message → Option String :=
  fun m _ => if m = AI_MODEL then none else some fallbackAnswer

/-- An answer wrapped in leading prose without a fence (C6). -/
def proseAnswer : String := "Here is the data: [\x7b\"title\":\"a\",\"url\":\"http://x\"\x7d]"

/-- An answer whose first item has an elided url and an empty title and whose
second has a scheme-less url (C7). -/
def ansElide : String := "[\x7b\"title\":\"\",\"url\":\"http://a...b\"\x7d,\x7b\"title\":\"x\",\"url\":\"foo\"\x7d]"

/-- A homepage fetch long enough to pass the 500-character gate (C9). -/
def bigHome : String := String.mk (List.replicate 501 'a')

/-- A listing answer with one valid item; as a detail answer it parses to a
truthy array (C9). -/
def listAnswer : String := "[\x7b\"title\":\"t\",\"url\":\"http://x\"\x7d]"

/-- An input one character longer than the listing-phase slice bound
(C3, C4). -/
def bigInput : String := String.mk (List.replicate 20001 'a')

/-- Strip trailing Python whitespace (the second half of `str.strip()`). -/
def stripBack (cs : List Char) : List Char := (cs.reverse.dropWhile isPyWs).reverse

/-- A fenced wrapping of a payload: leading prose, an opening fence with an
optional language tag, the payload on its own line, a closing fence, and
trailing prose. -/
def fencedWrap (tag payload p1 p2 : List Char) : List Char :=
  p1 ++ backtick :: backtick :: backtick ::
    (tag ++ '\n' :: (payload ++ '\n' :: backtick :: backtick :: backtick :: p2))

set_option maxRecDepth 20000

/-- C1: the listing phase is documented (inline comment, line 169, and the
prompt's "5 条") to keep at most 5 items, but the slice bound is 8: a
six-item model answer yields six items. -/
theorem C1_slice_exceeds_five :
    (hotNewsFromAnswer "page" (some ansSix)).length = 6 ∧
    ¬((hotNewsFromAnswer "page" (some ansSix)).length ≤ 5) :=
  ⟨rfl, by decide⟩

/-- C2 counterexample: with an endpoint failing on the configured id and
succeeding on any other id, the pipeline returns the empty list — the second
id's successful answer (which would yield one item) is never consulted. -/
theorem C2_counterexample :
    get_latest_hot_news "2026-02-03" "md" twoModelRespond = [] ∧
    twoModelRespond "backup-model" [] = some fallbackAnswer ∧
    hotNewsFromAnswer "md" (some fallbackAnswer) = [⟨Json.str "a", "http://x"⟩] :=
  ⟨rfl, rfl, rfl⟩

/-- C2 amended: the gateway consists of a single request with the one
configured model id; the result depends only on that id's answer, and a
raising request yields the empty list without retry or fallback. -/
theorem C2_amended :
    (∀ (today md : String) (r1 r2 : String → List Message → Option String),
        (∀ msgs, r1 AI_MODEL msgs = r2 AI_MODEL msgs) →
        get_latest_hot_news today md r1 = get_latest_hot_news today md r2) ∧
    (∀ (today md : String) (r : String → List Message → Option String),
        r AI_MODEL (listMessages today md) = none →
        get_latest_hot_news today md r = []) := by
  constructor
  · intro today md r1 r2 h
    simp [get_latest_hot_news, h]
  · intro today md r h
    simp [get_latest_hot_news, h, hotNewsFromAnswer]

/-- C2 witness: concrete instances of both parts of the amended claim. -/
theorem C2_amended_witness :
    get_latest_hot_news "d" "m" (fun _ _ => none) = [] ∧
    get_latest_hot_news "d" "m" (fun _ _ => some "x") =
      get_latest_hot_news "d" "m" (fun m _ => if m = "other-id" then none else some "x") :=
  ⟨C2_amended.2 "d" "m" _ rfl,
   C2_amended.1 "d" "m" _ _ (fun _ => rfl)⟩

/-- C3 counterexample: for an input of 20001 characters the specified
chunking at the code's slice bound 20000 gives N = 2, so the claim demands
one acknowledge turn before the final turn (two user turns); the code builds
a single user turn. -/
theorem C3_counterexample :
    specChunkCount bigInput 20000 = 2 ∧
    (listMessages "2026-02-03" bigInput).length = 1 ∧
    (listMessages "2026-02-03" bigInput).length < 2 := by
  have hdata : bigInput.toList = List.replicate 20001 'a' := rfl
  have hlen : bigInput.length = 20001 := by
    rw [show bigInput.length = bigInput.toList.length from rfl, hdata, List.length_replicate]
  refine ⟨?_, rfl, by decide⟩
  show (bigInput.length + 20000 - 1) / 20000 = 2
  rw [hlen]

/-- C3 amended: the script never chunk-feeds: both phases send exactly one
user turn carrying the whole (truncated) context, and no acknowledge turn
exists for any input. -/
theorem C3_amended :
    ∀ (today md : String),
      (listMessages today md).map Message.role = ["user"] ∧
      (detailMessages md).map Message.role = ["user"] :=
  fun _ _ => ⟨rfl, rfl⟩

/-- C4 counterexample: at the code's slice bound 20000, an input of 20001
characters yields one segment whose concatenation drops the final character,
not ceil(20001/20000) = 2 covering segments. -/
theorem C4_counterexample :
    String.join (codeChunks bigInput 20000) ≠ bigInput ∧
    (codeChunks bigInput 20000).length = 1 ∧
    specChunkCount bigInput 20000 = 2 := by
  have hdata : bigInput.toList = List.replicate 20001 'a' := rfl
  have hlen : bigInput.length = 20001 := by
    rw [show bigInput.length = bigInput.toList.length from rfl, hdata, List.length_replicate]
  refine ⟨?_, rfl, ?_⟩
  · intro h
    have hj : String.join (codeChunks bigInput 20000) = pyTake 20000 bigInput := rfl
    have h20 : (pyTake 20000 bigInput).length = 20000 := by
      rw [show (pyTake 20000 bigInput).length = (bigInput.toList.take 20000).length from rfl,
        hdata, List.length_take, List.length_replicate]
      omega
    rw [hj] at h
    rw [h, hlen] at h20
    omega
  · show (bigInput.length + 20000 - 1) / 20000 = 2
    rw [hlen]

/-- C4 amended: the slice produces exactly one segment, and concatenating the
produced segments reproduces the text exactly when the text is no longer
than the bound — longer texts are truncated, not covered. -/
theorem C4_amended :
    ∀ (text : String) (n : Nat),
      (codeChunks text n).length = 1 ∧
      (String.join (codeChunks text n) = text ↔ text.length ≤ n) := by
  intro text n
  refine ⟨rfl, ?_⟩
  have hj : String.join (codeChunks text n) = pyTake n text := rfl
  rw [hj]
  obtain ⟨l⟩ := text
  rw [show (String.mk l).length = l.length from rfl, String.ext_iff]
  show l.take n = l ↔ l.length ≤ n
  exact List.take_eq_self_iff l

/-- C5: on the truncated-array answer the direct parse fails, the repair
condition holds, the single bracket-append re-parse succeeds, and the
pipeline yields the one item. -/
theorem C5_truncated_array_repair :
    loads (clean_json_string rawTruncated) = none ∧
    startsWithPy (pyStrip (clean_json_string rawTruncated)) "[" = true ∧
    endsWithPy (pyStrip (clean_json_string rawTruncated)) "]" = false ∧
    loads (clean_json_string rawTruncated ++ "]") =
      some (Json.arr [Json.obj [("title", Json.str "a"), ("url", Json.str "http://x")]]) ∧
    hotNewsFromAnswer "md" (some rawTruncated) = [⟨Json.str "a", "http://x"⟩] :=
  ⟨rfl, rfl, rfl, rfl, rfl⟩

/-- C6 counterexample: the same payload that parses alone is not recovered
when wrapped in unfenced prose — there is no opener-to-closer slicing — so
extraction yields the empty list instead of the one item. -/
theorem C6_counterexample :
    hotNewsFromAnswer "md" (some proseAnswer) = [] ∧
    hotNewsFromAnswer "md" (some fallbackAnswer) = [⟨Json.str "a", "http://x"⟩] ∧
    ([] : List VItem) ≠ [⟨Json.str "a", "http://x"⟩] := by
  refine ⟨rfl, rfl, ?_⟩
  intro h
  exact absurd (congrArg List.length h) (by decide)

/-- C7 counterexample: an item whose url carries the ellipsis elision marker
and an empty title, and an item whose url has no scheme, both pass the
validation loop untouched. -/
theorem C7_counterexample :
    hotNewsFromAnswer "page" (some ansElide) =
      [⟨Json.str "", "http://a...b"⟩, ⟨Json.str "x", "foo"⟩] ∧
    strContainsB "http://a...b" "..." = true ∧
    strContainsB "foo" "://" = false :=
  ⟨rfl, rfl, rfl⟩

/-- C8: when every fetch returns the empty string, the run never reaches the
model call and writes an explicit empty collection. -/
theorem C8_empty_sources :
    ∀ (apiKey today : String) (fetch : String → String)
      (respond : String → List Message → Option String),
      apiKey ≠ "" → (∀ s, fetch s = "") →
      mainRun apiKey fetch today respond = some ⟨false, some (Json.arr [])⟩ := by
  intro k today fetch respond hk hf
  have hfull : fullHome fetch = "" := by
    simp [fullHome, SOURCES, hf]
  simp [mainRun, hfull, hk]

/-- C8 witness. -/
theorem C8_empty_sources_witness :
    mainRun "key" (fun _ => "") "2026-02-03" (fun _ _ => none) =
      some ⟨false, some (Json.arr [])⟩ :=
  C8_empty_sources "key" "2026-02-03" (fun _ => "") (fun _ _ => none)
    (by decide) (fun _ => rfl)

/-- C9 counterexample: each source fetch passes the length gate, the listing
phase extracts one item, the detail answer parses successfully to a truthy
array, and the attribute access on it aborts the whole run (`none` =
uncaught exception), although every enumerated per-article failure mode was
absent. -/
theorem C9_counterexample :
    mainRun "key" (fun _ => bigHome) "2026-02-03" (fun _ _ => some listAnswer) = none ∧
    get_latest_hot_news "2026-02-03" (fullHome (fun _ => bigHome)) (fun _ _ => some listAnswer) =
      [⟨Json.str "t", "http://x"⟩] ∧
    loads (clean_json_string listAnswer) =
      some (Json.arr [Json.obj [("title", Json.str "t"), ("url", Json.str "http://x")]]) :=
  ⟨rfl, rfl, rfl⟩

/-- C10: for an item with a string url, the kept url is produced exactly by
the code's base-origin heuristic — path-relative urls join the ithome origin
exactly when "ithome" occurs in the aggregated markdown and "mydrivers" does
not occur in the url, and the mydrivers origin otherwise; other urls pass
unchanged — and the choice depends on the aggregated markdown only through
that containment test, not on the item's actual source page. -/
theorem C10_base_origin_heuristic :
    (∀ (md : String) (t : Json) (u : String), u ≠ "" →
      processItem md (Json.obj [("title", t), ("url", Json.str u)]) =
        some (some ⟨t,
          if startsWithPy u "/" then
            if strContainsB md "ithome" && !(strContainsB u "mydrivers") then
              urljoin "https://www.ithome.com" u
            else urljoin "https://www.mydrivers.com" u
          else u⟩)) ∧
    (∀ (md md' : String) (item : Json),
      strContainsB md "ithome" = strContainsB md' "ithome" →
      processItem md item = processItem md' item) := by
  constructor
  · intro md t u h
    rw [show processItem md (Json.obj [("title", t), ("url", Json.str u)]) =
        (if u = "" then some none else some (some ⟨t,
          if startsWithPy u "/" then
            if strContainsB md "ithome" && !(strContainsB u "mydrivers") then
              urljoin "https://www.ithome.com" u
            else urljoin "https://www.mydrivers.com" u
          else u⟩) : Option (Option VItem)) from rfl, if_neg h]
  · intro md md' item hmd
    cases item with
    | obj kvs => simp only [processItem, hmd]
    | null => rfl
    | bool b => rfl
    | num n => rfl
    | str s => rfl
    | arr xs => rfl

/-- C10 witness: a path-relative url on an ithome-containing page joins the
ithome origin. -/
theorem C10_base_origin_heuristic_witness :
    processItem "...ithome..." (Json.obj [("title", Json.str "t"), ("url", Json.str "/a")]) =
      some (some ⟨Json.str "t", "https://www.ithome.com/a"⟩) :=
  (C10_base_origin_heuristic.1 "...ithome..." (Json.str "t") "/a" (by decide)).trans rfl

/-- C9 amended: an empty detail fetch omits the item and the loop continues;
a raising request or unparseable answer yields the placeholder, which is
appended and the loop continues; but (per the counterexample) an answer that
parses to a truthy non-object aborts the whole run. -/
theorem C9_amended :
    (∀ (respond : String → List Message → Option String),
        get_article_details "" respond = none) ∧
    (∀ (fetch : String → String) (respond : String → List Message → Option String)
        (n : VItem) (rest : List VItem), fetch n.url = "" →
        detailLoop fetch respond (n :: rest) = detailLoop fetch respond rest) ∧
    (∀ (fetched : String) (respond : String → List Message → Option String),
        fetched ≠ "" → respond AI_MODEL (detailMessages fetched) = none →
        get_article_details fetched respond = some placeholderDetail) ∧
    (∀ (fetched c : String) (respond : String → List Message → Option String),
        fetched ≠ "" → respond AI_MODEL (detailMessages fetched) = some c →
        loads (clean_json_string c) = none →
        get_article_details fetched respond = some placeholderDetail) ∧
    (∀ (fetch : String → String) (respond : String → List Message → Option String)
        (n : VItem) (rest : List VItem),
        get_article_details (fetch n.url) respond = some placeholderDetail →
        detailLoop fetch respond (n :: rest) =
          (detailLoop fetch respond rest).map
            (fun l => resultRecord n.title
              [("content", Json.str "内容提取失败"), ("images", Json.arr [])] :: l)) := by
  refine ⟨?_, ?_, ?_, ?_, ?_⟩
  · intro r
    simp [get_article_details]
  · intro fetch r n rest h
    simp [detailLoop, h, get_article_details, detailStep]
  · intro f r hf hr
    simp [get_article_details, hf, hr]
  · intro f c r hf hr hl
    simp [get_article_details, hf, hr, hl]
  · intro fetch r n rest h
    have hstep : detailStep n.title (some placeholderDetail) =
        some (some (resultRecord n.title
          [("content", Json.str "内容提取失败"), ("images", Json.arr [])])) := rfl
    simp only [detailLoop]
    rw [h, hstep]

/-- C9 witness: concrete instances of the omission and placeholder parts. -/
theorem C9_amended_witness :
    get_article_details "" (fun _ _ => none) = none ∧
    get_article_details "x" (fun _ _ => none) = some placeholderDetail ∧
    get_article_details "x" (fun _ _ => some "oops") = some placeholderDetail :=
  ⟨C9_amended.1 _, C9_amended.2.2.1 "x" _ (by decide) rfl,
   C9_amended.2.2.2.1 "x" "oops" _ (by decide) rfl rfl⟩

theorem origin_append_ne_empty (b u : String) (hb : b.length ≠ 0) : b ++ u ≠ "" := by
  intro h
  have hl := congrArg String.length h
  rw [String.length_append, String.length_empty] at hl
  omega

theorem processItem_kept_url_ne (md : String) (item : Json) (vi : VItem)
    (h : processItem md item = some (some vi)) : vi.url ≠ "" := by
  unfold processItem at h
  split at h
  case h_2 => exact absurd h (by simp)
  case h_1 =>
    rename_i kvs
    simp only [] at h
    split at h
    case h_2 => split at h <;> simp at h
    case h_1 =>
      rename_i u heq
      split at h
      case isTrue => simp at h
      case isFalse hu =>
        rw [Option.some.injEq, Option.some.injEq] at h
        subst h
        split
        · split
          · exact origin_append_ne_empty "https://www.ithome.com" u (by decide)
          · exact origin_append_ne_empty "https://www.mydrivers.com" u (by decide)
        · exact hu

theorem processItems_kept_url_ne (md : String) :
    ∀ (data : List Json) (valid : List VItem),
      processItems md data = some valid → ∀ it ∈ valid, it.url ≠ "" := by
  intro data
  induction data with
  | nil =>
    intro valid h it hit
    rw [show processItems md [] = some [] from rfl, Option.some.injEq] at h
    subst h
    simp at hit
  | cons item rest ih =>
    intro valid h it hit
    unfold processItems at h
    cases hpi : processItem md item with
    | none => rw [hpi] at h; exact absurd h (by simp)
    | some o =>
      cases o with
      | none =>
        rw [hpi] at h
        exact ih valid h it hit
      | some v =>
        rw [hpi] at h
        have h' : (processItems md rest).map (fun l => v :: l) = some valid := h
        cases hrest : processItems md rest with
        | none => rw [hrest] at h'; exact absurd h' (by simp)
        | some l =>
          rw [hrest] at h'
          rw [show (some l).map (fun l => v :: l) = some (v :: l) from rfl,
            Option.some.injEq] at h'
          subst h'
          cases hit with
          | head => exact processItem_kept_url_ne md item it hpi
          | tail _ hm => exact ih l hrest it hm

/-- C7 amended: the only per-item validation is the empty-url check — an
item with an empty url is dropped individually while processing continues on
the rest — and consequently every returned item has a non-empty url; no
elision-marker, scheme or non-empty-title validation occurs (see the
counterexample). -/
theorem C7_amended :
    (∀ (md : String) (answer : Option String) (it : VItem),
        it ∈ hotNewsFromAnswer md answer → it.url ≠ "") ∧
    (∀ (md : String) (jt : Json) (rest : List Json),
        processItems md (Json.obj [("title", jt), ("url", Json.str "")] :: rest) =
          processItems md rest) := by
  constructor
  · intro md answer it hit
    unfold hotNewsFromAnswer at hit
    split at hit
    · simp at hit
    · simp only [] at hit
      split at hit
      case h_2 => simp at hit
      case h_1 =>
        rename_i data hparse
        split at hit
        case h_2 => simp at hit
        case h_1 =>
          rename_i valid hvp
          exact processItems_kept_url_ne md data valid hvp it (List.mem_of_mem_take hit)
  · intro md jt rest
    rfl

/-- C7 witness: an item from a concrete answer has a non-empty url. -/
theorem C7_amended_witness :
    (VItem.mk (Json.str "a") "http://x").url ≠ "" := by
  have hmem : (VItem.mk (Json.str "a") "http://x") ∈
      hotNewsFromAnswer "m" (some fallbackAnswer) := by
    rw [show hotNewsFromAnswer "m" (some fallbackAnswer) =
      [⟨Json.str "a", "http://x"⟩] from rfl]
    exact List.mem_singleton.mpr rfl
  exact C7_amended.1 "m" (some fallbackAnswer) _ hmem

theorem pyStripL_eq_stripBack (cs : List Char) :
    pyStripL cs = stripBack (cs.dropWhile isPyWs) := rfl

theorem dropWhile_append_cons :
    ∀ (p : List Char) (x : Char) (xs : List Char), isPyWs x = false →
      List.dropWhile isPyWs (p ++ x :: xs) = List.dropWhile isPyWs p ++ x :: xs := by
  intro p x xs hx
  induction p with
  | nil => simp [List.dropWhile_cons, hx]
  | cons c p ih =>
    by_cases hc : isPyWs c = true
    · simp [List.dropWhile_cons, hc, ih]
    · simp at hc
      simp [List.dropWhile_cons, hc]

theorem stripBack_append_cons (A : List Char) (x : Char) (p2 : List Char)
    (hx : isPyWs x = false) :
    stripBack ((A ++ [x]) ++ p2) = (A ++ [x]) ++ stripBack p2 := by
  unfold stripBack
  rw [List.reverse_append, List.reverse_append, List.reverse_singleton]
  rw [show ([x] ++ A.reverse : List Char) = x :: A.reverse from rfl]
  rw [dropWhile_append_cons _ _ _ hx]
  rw [List.reverse_append, List.reverse_cons, List.reverse_reverse]

theorem stripBack_end (A : List Char) (x : Char) (hx : isPyWs x = false) :
    stripBack (A ++ [x]) = A ++ [x] := by
  have h := stripBack_append_cons A x [] hx
  simpa using h

theorem splitAtFence_none :
    ∀ (cs : List Char), (∀ c ∈ cs, c ≠ backtick) → splitAtFence cs = none := by
  intro cs h
  induction cs with
  | nil => rfl
  | cons c t ih =>
    have hc : c ≠ backtick := h c (List.mem_cons_self c t)
    have ht : splitAtFence t = none := ih (fun d hd => h d (List.mem_cons_of_mem c hd))
    simp [splitAtFence, hc, ht]

theorem splitAtFence_found :
    ∀ (p rest : List Char), (∀ c ∈ p, c ≠ backtick) →
      splitAtFence (p ++ backtick :: backtick :: backtick :: rest) = some (p, rest) := by
  intro p
  induction p with
  | nil => intro rest h; simp [splitAtFence]
  | cons c p ih =>
    intro rest h
    have hc : c ≠ backtick := h c (List.mem_cons_self c p)
    have ht := ih rest (fun d hd => h d (List.mem_cons_of_mem c hd))
    simp [splitAtFence, hc, ht]

theorem dropJsonCI_json (r : List Char) :
    dropJsonCI ('j' :: 's' :: 'o' :: 'n' :: r) = r := by
  simp [dropJsonCI]

theorem dropJsonCI_head (c : Char) (r : List Char) (h1 : c ≠ 'j') (h2 : c ≠ 'J') :
    dropJsonCI (c :: r) = c :: r := by
  match r with
  | [] => rfl
  | [b] => rfl
  | [b, d] => rfl
  | b :: d :: e :: r => simp [dropJsonCI, h1, h2]

theorem parseStrBody_escAll :
    ∀ (l : List Char) (rest : List Char), (∀ c ∈ l, 32 ≤ c.toNat) →
      parseStrBody (escAll l ++ '"' :: rest) = some (l, rest) := by
  intro l
  induction l with
  | nil =>
    intro rest h
    rw [show escAll [] ++ '"' :: rest = '"' :: rest from rfl, parseStrBody.eq_def]
    simp
  | cons c l ih =>
    intro rest h
    have hc : 32 ≤ c.toNat := h c (List.mem_cons_self c l)
    have ht := ih rest (fun d hd => h d (List.mem_cons_of_mem c hd))
    by_cases hq : c = '"'
    · subst hq
      rw [show escAll ('"' :: l) ++ '"' :: rest =
        '\\' :: '"' :: (escAll l ++ '"' :: rest) from by simp [escAll, escSeq]]
      rw [parseStrBody.eq_def]
      simp [escChar, ht]
    · by_cases hb : c = '\\'
      · subst hb
        rw [show escAll ('\\' :: l) ++ '"' :: rest =
          '\\' :: '\\' :: (escAll l ++ '"' :: rest) from by simp [escAll, escSeq]]
        rw [parseStrBody.eq_def]
        simp [escChar, ht]
      · have hlt : ¬ c.toNat < 32 := by omega
        rw [show escAll (c :: l) ++ '"' :: rest =
          c :: (escAll l ++ '"' :: rest) from by simp [escAll, escSeq, hq, hb]]
        rw [parseStrBody.eq_def]
        simp [hq, hb, hlt, ht]

theorem strOk_toNat {s : String} (h : strOk s) : ∀ c ∈ s.data, 32 ≤ c.toNat :=
  fun c hc => (h c hc).1

theorem parseValue_strDump (fuel : Nat) (s : String) (rest : List Char)
    (hs : strOk s) (hf : 1 ≤ fuel) :
    parseValue fuel (strDumpL s ++ rest) = some (Json.str s, rest) := by
  obtain ⟨g, rfl⟩ : ∃ g, fuel = g + 1 := ⟨fuel - 1, by omega⟩
  rw [show strDumpL s ++ rest = '"' :: (escAll s.data ++ '"' :: rest) from by
    simp [strDumpL]]
  rw [parseValue.eq_def]
  simp [parseStrBody_escAll s.data rest (strOk_toNat hs)]

theorem skipWs_cons (c : Char) (cs : List Char) (h : isJsonWs c = false) :
    skipWs (c :: cs) = c :: cs := by
  simp [skipWs, List.dropWhile_cons, h]

theorem parseObjItems_last (fuel : Nat) (u : String) (rest : List Char)
    (hu : strOk u) (hf : 2 ≤ fuel) :
    parseObjItems fuel (strDumpL "url" ++ ':' :: (strDumpL u ++ '}' :: rest)) =
      some ([("url", Json.str u)], rest) := by
  obtain ⟨g, rfl⟩ : ∃ g, fuel = g + 2 := ⟨fuel - 2, by omega⟩
  rw [show strDumpL "url" ++ ':' :: (strDumpL u ++ '}' :: rest) =
    '"' :: (escAll "url".data ++ '"' :: ':' :: (strDumpL u ++ '}' :: rest)) from by
      simp [strDumpL]]
  rw [parseObjItems.eq_def]
  simp only []
  rw [parseStrBody_escAll "url".data _ (by decide)]
  simp only []
  rw [skipWs_cons ':' _ (by decide)]
  simp only []
  rw [show skipWs (strDumpL u ++ '}' :: rest) = strDumpL u ++ '}' :: rest from by
    rw [show strDumpL u ++ '}' :: rest =
      '"' :: (escAll u.data ++ '"' :: '}' :: rest) from by simp [strDumpL]]
    exact skipWs_cons '"' _ (by decide)]
  rw [parseValue_strDump (g + 1) u ('}' :: rest) hu (by omega)]
  simp only []
  rw [skipWs_cons '}' _ (by decide)]
  simp

theorem parseObjItems_item (fuel : Nat) (t u : String) (rest : List Char)
    (ht : strOk t) (hu : strOk u) (hf : 3 ≤ fuel) :
    parseObjItems fuel (strDumpL "title" ++ ':' ::
        (strDumpL t ++ ',' :: (strDumpL "url" ++ ':' :: (strDumpL u ++ '}' :: rest)))) =
      some ([("title", Json.str t), ("url", Json.str u)], rest) := by
  obtain ⟨g, rfl⟩ : ∃ g, fuel = g + 3 := ⟨fuel - 3, by omega⟩
  rw [show strDumpL "title" ++ ':' ::
      (strDumpL t ++ ',' :: (strDumpL "url" ++ ':' :: (strDumpL u ++ '}' :: rest))) =
    '"' :: (escAll "title".data ++ '"' :: ':' ::
      (strDumpL t ++ ',' :: (strDumpL "url" ++ ':' :: (strDumpL u ++ '}' :: rest)))) from by
      simp [strDumpL]]
  rw [parseObjItems.eq_def]
  simp only []
  rw [parseStrBody_escAll "title".data _ (by decide)]
  simp only []
  rw [skipWs_cons ':' _ (by decide)]
  simp only []
  rw [show skipWs (strDumpL t ++ ',' :: (strDumpL "url" ++ ':' :: (strDumpL u ++ '}' :: rest))) =
      strDumpL t ++ ',' :: (strDumpL "url" ++ ':' :: (strDumpL u ++ '}' :: rest)) from by
    rw [show strDumpL t ++ ',' :: (strDumpL "url" ++ ':' :: (strDumpL u ++ '}' :: rest)) =
      '"' :: (escAll t.data ++ '"' :: ',' :: (strDumpL "url" ++ ':' :: (strDumpL u ++ '}' :: rest)))
      from by simp [strDumpL]]
    exact skipWs_cons '"' _ (by decide)]
  rw [parseValue_strDump (g + 2) t _ ht (by omega)]
  simp only []
  rw [skipWs_cons ',' _ (by decide)]
  simp only []
  rw [show skipWs (strDumpL "url" ++ ':' :: (strDumpL u ++ '}' :: rest)) =
      strDumpL "url" ++ ':' :: (strDumpL u ++ '}' :: rest) from by
    rw [show strDumpL "url" ++ ':' :: (strDumpL u ++ '}' :: rest) =
      '"' :: (escAll "url".data ++ '"' :: ':' :: (strDumpL u ++ '}' :: rest)) from by
      simp [strDumpL]]
    exact skipWs_cons '"' _ (by decide)]
  rw [parseObjItems_last (g + 2) u rest hu (by omega)]
  simp

theorem parseValue_item (fuel : Nat) (t u : String) (rest : List Char)
    (ht : strOk t) (hu : strOk u) (hf : 4 ≤ fuel) :
    parseValue fuel (itemDumpL t u ++ rest) = some (itemJson t u, rest) := by
  obtain ⟨g, rfl⟩ : ∃ g, fuel = g + 4 := ⟨fuel - 4, by omega⟩
  rw [show itemDumpL t u ++ rest =
    '{' :: (strDumpL "title" ++ ':' ::
      (strDumpL t ++ ',' :: (strDumpL "url" ++ ':' :: (strDumpL u ++ '}' :: rest)))) from by
      simp [itemDumpL]]
  rw [parseValue.eq_def]
  simp only []
  rw [show skipWs (strDumpL "title" ++ ':' ::
      (strDumpL t ++ ',' :: (strDumpL "url" ++ ':' :: (strDumpL u ++ '}' :: rest)))) =
      strDumpL "title" ++ ':' ::
      (strDumpL t ++ ',' :: (strDumpL "url" ++ ':' :: (strDumpL u ++ '}' :: rest))) from by
    rw [show strDumpL "title" ++ ':' ::
      (strDumpL t ++ ',' :: (strDumpL "url" ++ ':' :: (strDumpL u ++ '}' :: rest))) =
      '"' :: (escAll "title".data ++ '"' :: ':' ::
        (strDumpL t ++ ',' :: (strDumpL "url" ++ ':' :: (strDumpL u ++ '}' :: rest)))) from by
      simp [strDumpL]]
    exact skipWs_cons '"' _ (by decide)]
  rw [show strDumpL "title" ++ ':' ::
      (strDumpL t ++ ',' :: (strDumpL "url" ++ ':' :: (strDumpL u ++ '}' :: rest))) =
    '"' :: (escAll "title".data ++ '"' :: ':' ::
      (strDumpL t ++ ',' :: (strDumpL "url" ++ ':' :: (strDumpL u ++ '}' :: rest)))) from by
    simp [strDumpL]]
  simp only []
  rw [show '"' :: (escAll "title".data ++ '"' :: ':' ::
      (strDumpL t ++ ',' :: (strDumpL "url" ++ ':' :: (strDumpL u ++ '}' :: rest)))) =
    strDumpL "title" ++ ':' ::
      (strDumpL t ++ ',' :: (strDumpL "url" ++ ':' :: (strDumpL u ++ '}' :: rest))) from by
    simp [strDumpL]]
  rw [parseObjItems_item (g + 3) t u rest ht hu (by omega)]
  simp [itemJson]

theorem newsItemsDumpL_cons_shape (q : String × String) (tl : List (String × String)) :
    ∃ X, newsItemsDumpL (q :: tl) = '{' :: X := by
  cases tl with
  | nil =>
    exact ⟨strDumpL "title" ++ ':' :: (strDumpL q.1 ++ ',' ::
      (strDumpL "url" ++ ':' :: (strDumpL q.2 ++ ['}']))), rfl⟩
  | cons r tl =>
    exact ⟨(strDumpL "title" ++ ':' :: (strDumpL q.1 ++ ',' ::
      (strDumpL "url" ++ ':' :: (strDumpL q.2 ++ ['}'])))) ++
        ',' :: newsItemsDumpL (r :: tl), rfl⟩

theorem parseArrItems_items :
    ∀ (v : List (String × String)) (fuel : Nat) (rest : List Char),
      (∀ p ∈ v, strOk p.1 ∧ strOk p.2) → v ≠ [] → v.length + 4 ≤ fuel →
      parseArrItems fuel (newsItemsDumpL v ++ ']' :: rest) =
        some (v.map (fun p => itemJson p.1 p.2), rest) := by
  intro v
  induction v with
  | nil => intro fuel rest _ hne _; exact absurd rfl hne
  | cons p tl ih =>
    intro fuel rest hwf _ hf
    have hp := hwf p (List.mem_cons_self p tl)
    obtain ⟨g, rfl⟩ : ∃ g, fuel = g + 1 := ⟨fuel - 1, by omega⟩
    cases tl with
    | nil =>
      rw [show newsItemsDumpL [p] ++ ']' :: rest = itemDumpL p.1 p.2 ++ ']' :: rest from by
        simp [newsItemsDumpL]]
      rw [parseArrItems.eq_def]
      simp only []
      rw [parseValue_item g p.1 p.2 (']' :: rest) hp.1 hp.2 (by simp at hf; omega)]
      simp only []
      rw [skipWs_cons ']' _ (by decide)]
      simp
    | cons q tl' =>
      rw [show newsItemsDumpL (p :: q :: tl') ++ ']' :: rest =
        itemDumpL p.1 p.2 ++ ',' :: (newsItemsDumpL (q :: tl') ++ ']' :: rest) from by
        simp [newsItemsDumpL]]
      rw [parseArrItems.eq_def]
      simp only []
      rw [parseValue_item g p.1 p.2 (',' :: (newsItemsDumpL (q :: tl') ++ ']' :: rest))
        hp.1 hp.2 (by simp at hf; omega)]
      simp only []
      rw [skipWs_cons ',' _ (by decide)]
      simp only []
      obtain ⟨X, hX⟩ := newsItemsDumpL_cons_shape q tl'
      rw [show skipWs (newsItemsDumpL (q :: tl') ++ ']' :: rest) =
          newsItemsDumpL (q :: tl') ++ ']' :: rest from by
        rw [hX, show ('{' :: X) ++ ']' :: rest = '{' :: (X ++ ']' :: rest) from rfl]
        exact skipWs_cons '{' _ (by decide)]
      rw [ih g rest (fun d hd => hwf d (List.mem_cons_of_mem p hd)) (by simp)
        (by simp at hf ⊢; omega)]
      simp

theorem parseValue_newsDump (v : List (String × String)) (fuel : Nat) (rest : List Char)
    (hwf : ∀ p ∈ v, strOk p.1 ∧ strOk p.2) (hf : v.length + 5 ≤ fuel) :
    parseValue fuel (newsDumpL v ++ rest) =
      some (Json.arr (v.map (fun p => itemJson p.1 p.2)), rest) := by
  obtain ⟨g, rfl⟩ : ∃ g, fuel = g + 1 := ⟨fuel - 1, by omega⟩
  cases v with
  | nil =>
    rw [show newsDumpL [] ++ rest = '[' :: ']' :: rest from by simp [newsDumpL, newsItemsDumpL]]
    rw [parseValue.eq_def]
    simp only []
    rw [skipWs_cons ']' _ (by decide)]
    simp
  | cons q tl =>
    obtain ⟨X, hX⟩ := newsItemsDumpL_cons_shape q tl
    rw [show newsDumpL (q :: tl) ++ rest =
      '[' :: ('{' :: (X ++ ']' :: rest)) from by rw [newsDumpL, hX]; simp [List.cons_append, List.append_assoc]]
    rw [parseValue.eq_def]
    simp only []
    rw [skipWs_cons '{' _ (by decide)]
    simp only []
    rw [show '{' :: (X ++ ']' :: rest) = newsItemsDumpL (q :: tl) ++ ']' :: rest from by
      rw [hX]; exact (List.cons_append '{' X (']' :: rest)).symm]
    rw [parseArrItems_items (q :: tl) g rest hwf (by simp) (by simp at hf ⊢; omega)]
    simp

theorem newsItemsDumpL_length_ge : ∀ (v : List (String × String)),
    v.length ≤ (newsItemsDumpL v).length := by
  intro v
  induction v with
  | nil => simp [newsItemsDumpL]
  | cons p tl ih =>
    obtain ⟨X, hX⟩ := newsItemsDumpL_cons_shape p tl
    cases tl with
    | nil => rw [hX]; simp
    | cons q tl' =>
      rw [show newsItemsDumpL (p :: q :: tl') =
        itemDumpL p.1 p.2 ++ ',' :: newsItemsDumpL (q :: tl') from by simp [newsItemsDumpL]]
      obtain ⟨Y, hY⟩ := newsItemsDumpL_cons_shape q tl'
      rw [show itemDumpL p.1 p.2 = '{' :: (strDumpL "title" ++ ':' :: (strDumpL p.1 ++ ',' ::
        (strDumpL "url" ++ ':' :: (strDumpL p.2 ++ ['}'])))) from rfl]
      simp only [List.length_append, List.length_cons]
      have ihq := ih
      simp only [List.length_cons] at ihq ⊢
      omega

theorem loads_newsDump (v : List (String × String))
    (hwf : ∀ p ∈ v, strOk p.1 ∧ strOk p.2) :
    loads (newsDump v) = some (Json.arr (v.map (fun p => itemJson p.1 p.2))) := by
  have hlen : v.length ≤ (newsItemsDumpL v).length := newsItemsDumpL_length_ge v
  have htl : (newsDump v).toList = newsDumpL v := rfl
  unfold loads
  rw [htl]
  rw [show skipWs (newsDumpL v) = newsDumpL v from by
    rw [show newsDumpL v = '[' :: (newsItemsDumpL v ++ [']']) from rfl]
    exact skipWs_cons '[' _ (by decide)]
  rw [show newsDumpL v = newsDumpL v ++ [] from by simp]
  simp only []
  have hfuel : v.length + 5 ≤ 2 * (newsDumpL v ++ []).length + 2 := by
    simp only [List.append_nil]
    rw [show (newsDumpL v).length = (newsItemsDumpL v).length + 2 from by
      rw [show newsDumpL v = '[' :: (newsItemsDumpL v ++ [']']) from rfl]
      simp]
    omega
  rw [parseValue_newsDump v _ [] hwf hfuel]
  simp [skipWs]

theorem processItem_eval (md : String) (t : Json) (u : String) :
    processItem md (Json.obj [("title", t), ("url", Json.str u)]) =
      if u = "" then some none
      else some (some ⟨t,
        if startsWithPy u "/" then
          if strContainsB md "ithome" && !(strContainsB u "mydrivers") then
            urljoin "https://www.ithome.com" u
          else urljoin "https://www.mydrivers.com" u
        else u⟩) := rfl

theorem processItems_expected (md : String) :
    ∀ (v : List (String × String)),
      (∀ p ∈ v, p.2 ≠ "" ∧ startsWithPy p.2 "/" = false) →
      processItems md (v.map (fun p => itemJson p.1 p.2)) = some (expectedItems v) := by
  intro v
  induction v with
  | nil => intro h; rfl
  | cons p tl ih =>
    intro h
    have hp := h p (List.mem_cons_self p tl)
    have htl := ih (fun d hd => h d (List.mem_cons_of_mem p hd))
    rw [show (p :: tl).map (fun p => itemJson p.1 p.2) =
      itemJson p.1 p.2 :: tl.map (fun p => itemJson p.1 p.2) from rfl]
    rw [processItems, show itemJson p.1 p.2 =
      Json.obj [("title", Json.str p.1), ("url", Json.str p.2)] from rfl,
      processItem_eval, if_neg hp.1, hp.2]
    simp only [Bool.false_eq_true, if_false]
    rw [htl]
    rfl

theorem escAll_ne_backtick (l : List Char) (h : ∀ c ∈ l, c ≠ backtick) :
    ∀ c ∈ escAll l, c ≠ backtick := by
  intro c hc
  rw [escAll] at hc
  obtain ⟨seg, hseg, hcseg⟩ := List.mem_flatten.1 hc
  obtain ⟨d, hd, rfl⟩ := List.mem_map.1 hseg
  rw [escSeq] at hcseg
  by_cases hq : (d == '"' || d == '\\') = true
  · rw [if_pos hq] at hcseg
    simp only [List.mem_cons, List.not_mem_nil, or_false] at hcseg
    rcases hcseg with rfl | rfl
    · decide
    · exact h _ hd
  · rw [if_neg hq] at hcseg
    simp only [List.mem_cons, List.not_mem_nil, or_false] at hcseg
    subst hcseg
    exact h _ hd

theorem strDumpL_ne_backtick (s : String) (h : strOk s) :
    ∀ c ∈ strDumpL s, c ≠ backtick := by
  intro c hc
  rw [strDumpL] at hc
  simp only [List.mem_cons, List.mem_append, List.not_mem_nil, or_false] at hc
  rcases hc with rfl | hc | rfl
  · decide
  · exact escAll_ne_backtick s.data (fun d hd => (h d hd).2) c hc
  · decide

theorem itemDumpL_ne_backtick (t u : String) (ht : strOk t) (hu : strOk u) :
    ∀ c ∈ itemDumpL t u, c ≠ backtick := by
  intro c hc
  rw [itemDumpL] at hc
  simp only [List.mem_cons, List.mem_append, List.not_mem_nil, or_false] at hc
  have hkt : strOk "title" := by unfold strOk; decide
  have hku : strOk "url" := by unfold strOk; decide
  rcases hc with rfl | hc | rfl | hc | rfl | hc | rfl | hc | rfl
  · decide
  · exact strDumpL_ne_backtick "title" hkt c hc
  · decide
  · exact strDumpL_ne_backtick t ht c hc
  · decide
  · exact strDumpL_ne_backtick "url" hku c hc
  · decide
  · exact strDumpL_ne_backtick u hu c hc
  · decide

theorem newsItemsDumpL_ne_backtick :
    ∀ (v : List (String × String)), (∀ p ∈ v, strOk p.1 ∧ strOk p.2) →
      ∀ c ∈ newsItemsDumpL v, c ≠ backtick := by
  intro v
  induction v with
  | nil => intro _ c hc; simp [newsItemsDumpL] at hc
  | cons p tl ih =>
    intro hwf c hc
    have hp := hwf p (List.mem_cons_self p tl)
    cases tl with
    | nil =>
      rw [show newsItemsDumpL [p] = itemDumpL p.1 p.2 from by simp [newsItemsDumpL]] at hc
      exact itemDumpL_ne_backtick p.1 p.2 hp.1 hp.2 c hc
    | cons q tl' =>
      rw [show newsItemsDumpL (p :: q :: tl') =
        itemDumpL p.1 p.2 ++ ',' :: newsItemsDumpL (q :: tl') from by
          simp [newsItemsDumpL]] at hc
      simp only [List.mem_append, List.mem_cons] at hc
      rcases hc with hc | rfl | hc
      · exact itemDumpL_ne_backtick p.1 p.2 hp.1 hp.2 c hc
      · decide
      · exact ih (fun d hd => hwf d (List.mem_cons_of_mem p hd)) c hc

theorem newsDumpL_ne_backtick (v : List (String × String))
    (hwf : ∀ p ∈ v, strOk p.1 ∧ strOk p.2) :
    ∀ c ∈ newsDumpL v, c ≠ backtick := by
  intro c hc
  rw [newsDumpL] at hc
  simp only [List.mem_cons, List.mem_append, List.not_mem_nil, or_false] at hc
  rcases hc with rfl | hc | rfl
  · decide
  · exact newsItemsDumpL_ne_backtick v hwf c hc
  · decide

theorem pyStripL_newsDump (v : List (String × String)) :
    pyStripL (newsDumpL v) = newsDumpL v := by
  rw [pyStripL_eq_stripBack]
  rw [show newsDumpL v = '[' :: (newsItemsDumpL v ++ [']']) from rfl]
  rw [List.dropWhile_cons]
  simp only [show isPyWs '[' = false from by decide, Bool.false_eq_true, if_false]
  rw [show '[' :: (newsItemsDumpL v ++ [']']) = ('[' :: newsItemsDumpL v) ++ [']'] from by
    simp]
  exact stripBack_end _ ']' (by decide)

theorem clean_plain (v : List (String × String))
    (hwf : ∀ p ∈ v, strOk p.1 ∧ strOk p.2) :
    clean_json_string (newsDump v) = newsDump v := by
  unfold clean_json_string
  rw [show (newsDump v).toList = newsDumpL v from rfl, pyStripL_newsDump]
  simp only []
  rw [splitAtFence_none (newsDumpL v) (newsDumpL_ne_backtick v hwf)]
  rfl

theorem pyStripL_inner_newsDump (v : List (String × String)) :
    pyStripL ('\n' :: (newsDumpL v ++ ['\n'])) = newsDumpL v := by
  rw [pyStripL_eq_stripBack]
  rw [List.dropWhile_cons]
  simp only [show isPyWs '\n' = true from by decide, if_true]
  rw [show newsDumpL v ++ ['\n'] =
    '[' :: ((newsItemsDumpL v ++ [']']) ++ ['\n']) from by
      rw [show newsDumpL v = '[' :: (newsItemsDumpL v ++ [']']) from rfl]; simp]
  rw [List.dropWhile_cons]
  simp only [show isPyWs '[' = false from by decide, Bool.false_eq_true, if_false]
  rw [show '[' :: ((newsItemsDumpL v ++ [']']) ++ ['\n']) =
    (('[' :: newsItemsDumpL v) ++ [']']) ++ ['\n'] from by simp]
  rw [stripBack_append_cons ('[' :: newsItemsDumpL v) ']' ['\n'] (by decide)]
  rw [show stripBack ['\n'] = [] from rfl]
  rw [show newsDumpL v = '[' :: (newsItemsDumpL v ++ [']']) from rfl]
  simp

theorem clean_fenced (v : List (String × String)) (tag p1 p2 : List Char)
    (hwf : ∀ p ∈ v, strOk p.1 ∧ strOk p.2)
    (hp1 : ∀ c ∈ p1, c ≠ backtick)
    (htag : ∀ W : List Char, dropJsonCI (tag ++ '\n' :: W) = '\n' :: W) :
    clean_json_string (String.mk (fencedWrap tag (newsDumpL v) p1 p2)) = newsDump v := by
  have hd := newsDumpL_ne_backtick v hwf
  have hp1' : ∀ c ∈ List.dropWhile isPyWs p1, c ≠ backtick :=
    fun c hc => hp1 c ((List.dropWhile_sublist isPyWs).subset hc)
  unfold clean_json_string
  rw [show (String.mk (fencedWrap tag (newsDumpL v) p1 p2)).toList =
    fencedWrap tag (newsDumpL v) p1 p2 from rfl]
  rw [pyStripL_eq_stripBack]
  rw [show fencedWrap tag (newsDumpL v) p1 p2 =
    p1 ++ backtick :: (backtick :: backtick ::
      (tag ++ '\n' :: (newsDumpL v ++ '\n' :: backtick :: backtick :: backtick :: p2)))
    from rfl]
  rw [dropWhile_append_cons p1 backtick _ (by decide)]
  rw [show List.dropWhile isPyWs p1 ++ backtick :: (backtick :: backtick ::
      (tag ++ '\n' :: (newsDumpL v ++ '\n' :: backtick :: backtick :: backtick :: p2))) =
    ((List.dropWhile isPyWs p1 ++ backtick :: backtick :: backtick ::
      (tag ++ '\n' :: (newsDumpL v ++ '\n' :: backtick :: [backtick]))) ++ [backtick]) ++ p2
    from by simp]
  rw [stripBack_append_cons _ backtick p2 (by decide)]
  rw [show ((List.dropWhile isPyWs p1 ++ backtick :: backtick :: backtick ::
      (tag ++ '\n' :: (newsDumpL v ++ '\n' :: backtick :: [backtick]))) ++ [backtick]) ++
        stripBack p2 =
    List.dropWhile isPyWs p1 ++ backtick :: backtick :: backtick ::
      (tag ++ '\n' :: (newsDumpL v ++ '\n' :: backtick :: backtick :: backtick ::
        stripBack p2)) from by simp]
  simp only []
  rw [splitAtFence_found (List.dropWhile isPyWs p1) _ hp1']
  simp only []
  rw [htag (newsDumpL v ++ '\n' :: backtick :: backtick :: backtick :: stripBack p2)]
  rw [show ('\n' :: (newsDumpL v ++ '\n' :: backtick :: backtick :: backtick ::
      stripBack p2) : List Char) =
    ('\n' :: (newsDumpL v ++ ['\n'])) ++ backtick :: backtick :: backtick :: stripBack p2
    from by simp]
  rw [splitAtFence_found ('\n' :: (newsDumpL v ++ ['\n'])) (stripBack p2) (by
    intro c hc
    simp only [List.mem_cons, List.mem_append, List.not_mem_nil, or_false] at hc
    rcases hc with rfl | hc | rfl
    · decide
    · exact hd c hc
    · decide)]
  simp only []
  rw [pyStripL_inner_newsDump]
  rfl

theorem hotNews_parse_ok (md content : String) (data : List Json)
    (h : loads (clean_json_string content) = some (Json.arr data)) :
    hotNewsFromAnswer md (some content) =
      (match processItems md data with
       | some valid => valid.take 8
       | none => []) := by
  simp only [hotNewsFromAnswer]
  rw [h]

theorem hotNews_eval (md content : String) (v : List (String × String))
    (hclean : clean_json_string content = newsDump v)
    (hwf : ∀ p ∈ v, strOk p.1 ∧ strOk p.2)
    (hval : ∀ p ∈ v, p.2 ≠ "" ∧ startsWithPy p.2 "/" = false)
    (hlen : v.length ≤ 8) :
    hotNewsFromAnswer md (some content) = expectedItems v := by
  rw [hotNews_parse_ok md content (v.map (fun p => itemJson p.1 p.2)) (by
    rw [hclean]; exact loads_newsDump v hwf)]
  rw [processItems_expected md v hval]
  simp only []
  apply List.take_of_length_le
  rw [show (expectedItems v).length = v.length from by simp [expectedItems]]
  exact hlen

/-- C6 amended: the round-trip holds when the serialized value stands alone
(up to surrounding whitespace) or inside a single fenced code block — with
or without a "json" language tag, and with arbitrary backtick-free leading
prose and arbitrary trailing prose around the fence — but there is no
opener-to-closer slicing: unfenced prose defeats extraction (see the
counterexample). -/
theorem C6_amended :
    ∀ (v : List (String × String)) (md : String) (p1 p2 : List Char),
      (∀ p ∈ v, strOk p.1 ∧ strOk p.2 ∧ p.2 ≠ "" ∧ startsWithPy p.2 "/" = false) →
      v.length ≤ 8 →
      (∀ c ∈ p1, c ≠ backtick) →
      hotNewsFromAnswer md (some (newsDump v)) = expectedItems v ∧
      hotNewsFromAnswer md
        (some (String.mk (fencedWrap jsonTag (newsDumpL v) p1 p2))) = expectedItems v ∧
      hotNewsFromAnswer md
        (some (String.mk (fencedWrap [] (newsDumpL v) p1 p2))) = expectedItems v := by
  intro v md p1 p2 hv hlen hp1
  have hwf : ∀ p ∈ v, strOk p.1 ∧ strOk p.2 := fun p hp => ⟨(hv p hp).1, (hv p hp).2.1⟩
  have hval : ∀ p ∈ v, p.2 ≠ "" ∧ startsWithPy p.2 "/" = false :=
    fun p hp => ⟨(hv p hp).2.2.1, (hv p hp).2.2.2⟩
  refine ⟨?_, ?_, ?_⟩
  · exact hotNews_eval md (newsDump v) v (clean_plain v hwf) hwf hval hlen
  · refine hotNews_eval md _ v ?_ hwf hval hlen
    refine clean_fenced v jsonTag p1 p2 hwf hp1 ?_
    intro W
    rw [show jsonTag ++ '\n' :: W = 'j' :: 's' :: 'o' :: 'n' :: '\n' :: W from rfl]
    exact dropJsonCI_json ('\n' :: W)
  · refine hotNews_eval md _ v ?_ hwf hval hlen
    refine clean_fenced v [] p1 p2 hwf hp1 ?_
    intro W
    rw [show ([] : List Char) ++ '\n' :: W = '\n' :: W from rfl]
    exact dropJsonCI_head '\n' W (by decide) (by decide)

/-- C6 witness: a concrete one-item value round-trips bare and fenced. -/
theorem C6_amended_witness :
    hotNewsFromAnswer "md" (some (newsDump [("a", "http://x")])) =
      expectedItems [("a", "http://x")] ∧
    hotNewsFromAnswer "md"
      (some (String.mk (fencedWrap jsonTag (newsDumpL [("a", "http://x")])
        "Sure! Here is the data:\n".toList " Hope this helps.".toList))) =
      expectedItems [("a", "http://x")] := by
  have h := C6_amended [("a", "http://x")] "md"
    "Sure! Here is the data:\n".toList " Hope this helps.".toList
    (by
      intro p hp
      simp only [List.mem_singleton] at hp
      subst hp
      exact ⟨by unfold strOk; decide, by unfold strOk; decide, by decide, by decide⟩)
    (by decide) (by decide)
  exact ⟨h.1, h.2.1⟩
